import Mathlib

/-!
Verification of the uoproxy world mirror (`src/World.cxx`, `src/World.hxx`)
against its natural-language specification.

The embedding models a little-endian host: every packet field holds the raw
value of the corresponding C integer variable, and `htons`/`ntohs`/`htonl`/
`ntohl` are byte swaps.  Packet struct layouts are not part of the sources
(`packets.h` is external); their field lists are modelled from the spec, while
all mirror logic is translated from `World.cxx`.
-/

namespace UoProxy

/-- A 16-bit byte swap; models `htons` / `ntohs` on a little-endian host. -/
def bswap16 (x : Nat) : Nat :=
  (x % 256) * 256 + (x / 256) % 256

/-- A 32-bit byte swap; models `htonl` / `ntohl` on a little-endian host. -/
def bswap32 (x : Nat) : Nat :=
  (x % 256) * 16777216 + (x / 256 % 256) * 65536 +
    (x / 65536 % 256) * 256 + (x / 16777216) % 256

/-- Modelled from the spec: `struct uo_packet_start` (player-start ambient
packet; `packets.h` is not in the sources).  Fields used by `World.cxx`. -/
structure StartPacket where
  serial : Nat
  body : Nat
  x : Nat
  y : Nat
  /-- stored in big-endian form (spec §9) -/
  z : Nat
  direction : Nat
  deriving DecidableEq

/-- Modelled from the spec: `struct uo_packet_mobile_update`. -/
structure MobileUpdatePacket where
  serial : Nat
  body : Nat
  hue : Nat
  flags : Nat
  x : Nat
  y : Nat
  direction : Nat
  /-- stored in host order (spec §9) -/
  z : Nat
  deriving DecidableEq

/-- Modelled from the spec: `struct uo_packet_world_item` (revision 6). -/
structure WorldItemPacket where
  serial : Nat
  item_id : Nat
  amount : Nat
  x : Nat
  y : Nat
  direction : Nat
  z : Nat
  hue : Nat
  flags : Nat
  deriving DecidableEq

/-- Modelled from the spec: `struct uo_packet_world_item_7` (revision 7). -/
structure WorldItem7Packet where
  serial : Nat
  item_id : Nat
  amount : Nat
  x : Nat
  y : Nat
  z : Nat
  direction : Nat
  hue : Nat
  flags : Nat
  deriving DecidableEq

/-- Modelled from the spec: `struct uo_packet_equip`. -/
structure EquipPacket where
  serial : Nat
  item_id : Nat
  layer : Nat
  parent_serial : Nat
  hue : Nat
  deriving DecidableEq

/-- Modelled from the spec: `struct uo_packet_container_open`. -/
structure ContainerOpenPacket where
  serial : Nat
  gump_id : Nat
  deriving DecidableEq

/-- Modelled from the spec: `struct uo_packet_container_open_7` wraps the
rev-6 form plus trailing extension bytes. -/
structure ContainerOpen7Packet where
  base : ContainerOpenPacket
  item_count : Nat
  deriving DecidableEq

/-- Modelled from the spec: `struct uo_packet_fragment_container_item_6`
(one entry of a container-content packet). -/
structure ContainerItem where
  serial : Nat
  item_id : Nat
  amount : Nat
  x : Nat
  y : Nat
  parent_serial : Nat
  hue : Nat
  deriving DecidableEq

/-- Modelled from the spec: `struct uo_packet_container_update_6`
(a command byte followed by one container item fragment). -/
structure ContainerUpdatePacket where
  item : ContainerItem
  deriving DecidableEq

/-- Modelled from the spec: `struct uo_packet_container_content_6`; `num`
is the entry count, here implicit as the length of `items`. -/
structure ContainerContentPacket where
  items : List ContainerItem
  deriving DecidableEq

/-- Modelled from the spec: `struct uo_packet_mobile_incoming`.  The
variable-length equipment area after the fixed header is kept as raw bytes
(`itemBytes`), exactly the region `read_equipped` walks with pointers. -/
structure MobileIncomingPacket where
  serial : Nat
  body : Nat
  x : Nat
  y : Nat
  z : Nat
  direction : Nat
  hue : Nat
  flags : Nat
  notoriety : Nat
  itemBytes : List Nat
  deriving DecidableEq

/-- Modelled from the spec: `struct uo_packet_mobile_status`; `flags` is the
single-byte capability level compared by `world_mobile_status`. -/
structure MobileStatusPacket where
  serial : Nat
  hits : Nat
  hits_max : Nat
  flags : Nat
  deriving DecidableEq

/-- Modelled from the spec: `struct uo_packet_mobile_moving`. -/
structure MobileMovingPacket where
  serial : Nat
  body : Nat
  x : Nat
  y : Nat
  z : Nat
  direction : Nat
  hue : Nat
  flags : Nat
  notoriety : Nat
  deriving DecidableEq

/-- Modelled from the spec: `struct uo_packet_zone_change`. -/
structure ZoneChangePacket where
  x : Nat
  y : Nat
  z : Nat
  deriving DecidableEq

/-- The `socket` union of `struct Item` (`World.hxx`): the discriminating
`cmd` byte selects at most one of the three packet variants; `empty` is the
zero-initialized state (`socket.cmd = 0`). -/
inductive Socket where
  | empty : Socket
  | ground : WorldItem7Packet → Socket
  | container : ContainerUpdatePacket → Socket
  | mobile : EquipPacket → Socket
  deriving DecidableEq

/-- Source `struct Item` from `World.hxx`. -/
structure Item where
  serial : Nat
  socket : Socket
  packet_container_open : Option ContainerOpenPacket
  attach_sequence : Nat
  deriving DecidableEq

/-- The `Item` constructor: zeroed socket, zeroed container-open record,
`attach_sequence = 0`. -/
def newItem (serial : Nat) : Item :=
  { serial := serial, socket := Socket.empty,
    packet_container_open := none, attach_sequence := 0 }

/-- Source `struct Mobile` from `World.hxx`. -/
structure Mobile where
  serial : Nat
  packet_mobile_incoming : Option MobileIncomingPacket
  packet_mobile_status : Option MobileStatusPacket
  deriving DecidableEq

/-- The `Mobile` constructor: both packet pointers null. -/
def newMobile (serial : Nat) : Mobile :=
  { serial := serial, packet_mobile_incoming := none,
    packet_mobile_status := none }

/-- Source `struct World` from `World.hxx`, restricted to the fields `World.cxx`
reads or writes. -/
structure World where
  packet_start : StartPacket
  packet_mobile_update : MobileUpdatePacket
  mobiles : List Mobile
  items : List Item
  item_attach_sequence : Nat
  deriving DecidableEq

/-- Source `is_parent` from `World.cxx`: whether the item's socket designates
`parent_serial` as its parent (container or equipped variants only). -/
def is_parent (item : Item) (parent_serial : Nat) : Bool :=
  match item.socket with
  | Socket.container c => c.item.parent_serial == parent_serial
  | Socket.mobile e => e.parent_serial == parent_serial
  | _ => false

/-- Source `world_find_item`: first item in the list with the given serial. -/
def world_find_item (items : List Item) (serial : Nat) : Option Item :=
  items.find? (fun i => i.serial == serial)

/-- Source `find_mobile`: first mobile in the list with the given serial. -/
def find_mobile (mobiles : List Mobile) (serial : Nat) : Option Mobile :=
  mobiles.find? (fun m => m.serial == serial)

/-- Apply `f` to the first item with the given serial, leaving the rest
unchanged (the C code mutates the found node in place). -/
def modifyFirstItem (serial : Nat) (f : Item → Item) : List Item → List Item
  | [] => []
  | i :: rest =>
      if i.serial == serial then f i :: rest
      else i :: modifyFirstItem serial f rest

/-- Source `make_item` followed by a mutation of the returned node: modify the
existing item, or prepend a fresh one (`list_add` inserts at the head). -/
def makeItemAnd (items : List Item) (serial : Nat) (f : Item → Item) : List Item :=
  if (world_find_item items serial).isSome then modifyFirstItem serial f items
  else f (newItem serial) :: items

/-- Apply `f` to the first mobile with the given serial. -/
def modifyFirstMobile (serial : Nat) (f : Mobile → Mobile) : List Mobile → List Mobile
  | [] => []
  | m :: rest =>
      if m.serial == serial then f m :: rest
      else m :: modifyFirstMobile serial f rest

/-- Source `add_mobile` followed by a mutation of the returned node. -/
def makeMobileAnd (mobiles : List Mobile) (serial : Nat) (f : Mobile → Mobile) : List Mobile :=
  if (find_mobile mobiles serial).isSome then modifyFirstMobile serial f mobiles
  else f (newMobile serial) :: mobiles

/-- Modelled from the spec: `world_item_to_7` (the rev-6 → rev-7 packet
bridge lives outside the sources): the rev-6 serial has its high bit masked
off — on the raw little-endian value the mask is `htonl 0x7fffffff` =
`0xffffff7f` — and positional and identity fields are copied 1:1. -/
def world_item_to_7 (p : WorldItemPacket) : WorldItem7Packet :=
  { serial := p.serial &&& 0xffffff7f
    item_id := p.item_id
    amount := p.amount
    x := p.x
    y := p.y
    z := p.z
    direction := p.direction
    hue := p.hue
    flags := p.flags }

/-- Source `world_world_item`: upsert under the masked serial
(`p->serial & htonl(0x7fffffff)`), storing the converted ground socket. -/
def world_world_item (w : World) (p : WorldItemPacket) : World :=
  { w with items := (makeItemAnd w.items (p.serial &&& 0xffffff7f)
      (fun i => { i with socket := Socket.ground (world_item_to_7 p) })) }

/-- Source `world_world_item_7`: upsert under the unmasked serial, storing the
packet as the ground socket. -/
def world_world_item_7 (w : World) (p : WorldItem7Packet) : World :=
  { w with items := (makeItemAnd w.items p.serial
      (fun i => { i with socket := Socket.ground p })) }

/-- Source `world_equip`: upsert the equipped socket. -/
def world_equip (w : World) (p : EquipPacket) : World :=
  { w with items := (makeItemAnd w.items p.serial
      (fun i => { i with socket := Socket.mobile p })) }

/-- Source `world_container_open`: upsert the stored container-open record. -/
def world_container_open (w : World) (p : ContainerOpenPacket) : World :=
  { w with items := (makeItemAnd w.items p.serial
      (fun i => { i with packet_container_open := some p })) }

/-- Source `world_container_open_7`: delegates to `world_container_open` with the
embedded rev-6 base packet. -/
def world_container_open_7 (w : World) (p : ContainerOpen7Packet) : World :=
  world_container_open w p.base

/-- Source `world_container_update`: upsert the container socket. -/
def world_container_update (w : World) (p : ContainerUpdatePacket) : World :=
  { w with items := (makeItemAnd w.items p.item.serial
      (fun i => { i with socket := Socket.container p })) }

/-- Source `world_sweep_container_update_inside`: delete every item whose parent is
`parent_serial` and whose `attach_sequence` differs from the current
generation. -/
def world_sweep_container_update_inside (items : List Item)
    (parent_serial attach_sequence : Nat) : List Item :=
  items.filter
    (fun i => !(is_parent i parent_serial && i.attach_sequence != attach_sequence))

/-- One entry of the `world_container_content` loop: upsert a container
socket for the entry, stamped with the new generation. -/
def container_content_step (attach_sequence : Nat) (acc : List Item)
    (pi : ContainerItem) : List Item :=
  makeItemAnd acc pi.serial
    (fun i => { i with socket := Socket.container { item := pi },
                       attach_sequence := attach_sequence })

/-- Source `world_container_content`: bump the generation, upsert a container socket
per entry stamped with the new generation, then sweep stale children of the
first entry's parent — only when the entry list is non-empty. -/
def world_container_content (w : World) (p : ContainerContentPacket) : World :=
  let attach_sequence := (w.item_attach_sequence + 1) % 4294967296
  let items := p.items.foldl (container_content_step attach_sequence) w.items
  let items :=
    match p.items with
    | [] => items
    | pi0 :: _ =>
        world_sweep_container_update_inside items pi0.parent_serial attach_sequence
  { w with items := items, item_attach_sequence := attach_sequence }

/-- Source `remove_item_tree`: deep-delete all items contained in `parent_serial`,
recursively.  The C recursion is bounded by the shrinking item list; here an
explicit fuel plays that role (any fuel exceeding the list length is exact). -/
def remove_item_tree (fuel : Nat) (items : List Item) (parent_serial : Nat) : List Item :=
  match fuel with
  | 0 => items
  | fuel + 1 =>
      let children := items.filter (fun i => is_parent i parent_serial)
      let rest := items.filter (fun i => !is_parent i parent_serial)
      children.foldl (fun acc c => remove_item_tree fuel acc c.serial) rest

/-- Remove the first item with the given serial (`world_find_item` +
`world_remove_item`). -/
def removeFirstItem (serial : Nat) : List Item → List Item
  | [] => []
  | i :: rest => if i.serial == serial then rest else i :: removeFirstItem serial rest

/-- Remove the first mobile with the given serial. -/
def removeFirstMobile (serial : Nat) : List Mobile → List Mobile
  | [] => []
  | m :: rest => if m.serial == serial then rest else m :: removeFirstMobile serial rest

/-- Source `world_remove_item_serial`: delete the item itself, then its subtree. -/
def world_remove_item_serial (w : World) (serial : Nat) : World :=
  let items := removeFirstItem serial w.items
  { w with items := remove_item_tree (items.length + 1) items serial }

/-- Source `world_remove_mobile_serial`: delete the mobile, then the item subtree
hanging off its serial. -/
def world_remove_mobile_serial (w : World) (serial : Nat) : World :=
  { w with mobiles := removeFirstMobile serial w.mobiles,
           items := remove_item_tree (w.items.length + 1) w.items serial }

/-- Source `world_remove_serial`: classify by the host-order value (`ntohl`). -/
def world_remove_serial (w : World) (serial : Nat) : World :=
  let host_serial := bswap32 serial
  if host_serial < 0x40000000 then world_remove_mobile_serial w serial
  else if host_serial < 0x80000000 then world_remove_item_serial w serial
  else w

/-- Little-endian read of a 16-bit struct field from raw packet bytes. -/
def leRead2 (b : List Nat) : Nat :=
  b.getD 0 0 + 256 * b.getD 1 0

/-- Little-endian read of a 32-bit struct field from raw packet bytes. -/
def leRead4 (b : List Nat) : Nat :=
  b.getD 0 0 + 256 * b.getD 1 0 + 65536 * b.getD 2 0 + 16777216 * b.getD 3 0

/-- The pointer-walking loop of `read_equipped`: while a full 9-byte
`uo_packet_fragment_mobile_item` fits, stop at a zero serial, otherwise
upsert an equip record; the entry is 9 bytes when `item_id & htons(0x8000)`
(raw mask `0x0080`) is set (hue present), else 7.  Fuel is the initial byte
count; each step consumes at least 7 bytes, so the fuel never runs out. -/
def read_equipped_loop (parent_serial : Nat) (fuel : Nat) (w : World)
    (bytes : List Nat) : World :=
  match fuel with
  | 0 => w
  | fuel + 1 =>
      if bytes.length < 9 then w
      else
        let serial := leRead4 bytes
        if serial == 0 then w
        else
          let item_id := leRead2 (bytes.drop 4)
          let layer := bytes.getD 6 0
          if item_id &&& 128 != 0 then
            let equip : EquipPacket :=
              { serial := serial, item_id := item_id &&& 0xff3f, layer := layer,
                parent_serial := parent_serial, hue := leRead2 (bytes.drop 7) }
            read_equipped_loop parent_serial fuel (world_equip w equip) (bytes.drop 9)
          else
            let equip : EquipPacket :=
              { serial := serial, item_id := item_id &&& 0xff3f, layer := layer,
                parent_serial := parent_serial, hue := 0 }
            read_equipped_loop parent_serial fuel (world_equip w equip) (bytes.drop 7)

/-- Source `read_equipped`: walk the equipment area of a mobile-incoming packet. -/
def read_equipped (w : World) (p : MobileIncomingPacket) : World :=
  read_equipped_loop p.serial p.itemBytes.length w p.itemBytes

/-- The player-snapshot branch of `world_mobile_incoming`. -/
def mobile_incoming_player (w : World) (p : MobileIncomingPacket) : World :=
  if w.packet_start.serial == p.serial then
    { w with
      packet_start := { w.packet_start with
        body := p.body, x := p.x, y := p.y, z := bswap16 p.z,
        direction := p.direction }
      packet_mobile_update := { w.packet_mobile_update with
        body := p.body, hue := p.hue, flags := p.flags, x := p.x, y := p.y,
        direction := p.direction, z := p.z } }
  else w

/-- Source `add_mobile` + `replace_packet` storing the mobile-incoming record. -/
def mobile_incoming_store (w : World) (p : MobileIncomingPacket) : World :=
  let w := mobile_incoming_player w p
  { w with mobiles := (makeMobileAnd w.mobiles p.serial
      (fun m => { m with packet_mobile_incoming := some p })) }

/-- Source `world_mobile_incoming`: player snapshots, store the record, then parse
the embedded equipment list. -/
def world_mobile_incoming (w : World) (p : MobileIncomingPacket) : World :=
  read_equipped (mobile_incoming_store w p) p

/-- The replacement rule of `world_mobile_status`: store the packet unless
the mobile already holds a status record with strictly greater `flags`. -/
def mobile_status_apply (p : MobileStatusPacket) (m : Mobile) : Mobile :=
  match m.packet_mobile_status with
  | none => { m with packet_mobile_status := some p }
  | some st =>
      if st.flags ≤ p.flags then { m with packet_mobile_status := some p }
      else m

/-- Source `world_mobile_status`: `add_mobile`, then replace the stored status
record only when no record is stored or its `flags` is `<=` the packet's. -/
def world_mobile_status (w : World) (p : MobileStatusPacket) : World :=
  { w with mobiles := makeMobileAnd w.mobiles p.serial (mobile_status_apply p) }

/-- Source `world_mobile_update`: update player snapshots when the serial matches,
then patch the stored mobile-incoming record of the existing mobile; warn
(no state change) when the mobile is unknown. -/
def world_mobile_update (w : World) (p : MobileUpdatePacket) : World :=
  let w :=
    if w.packet_start.serial == p.serial then
      { w with
        packet_mobile_update := p
        packet_start := { w.packet_start with
          body := p.body, x := p.x, y := p.y, z := bswap16 p.z,
          direction := p.direction } }
    else w
  { w with mobiles :=
      match find_mobile w.mobiles p.serial with
      | none => w.mobiles
      | some _ =>
          modifyFirstMobile p.serial
            (fun m => { m with packet_mobile_incoming :=
              m.packet_mobile_incoming.map (fun pi =>
                { pi with body := p.body, x := p.x, y := p.y, z := p.z,
                          direction := p.direction, hue := p.hue,
                          flags := p.flags }) })
            w.mobiles }

/-- Source `world_mobile_moving`: like `world_mobile_update` but from a
mobile-moving packet, additionally copying `notoriety`. -/
def world_mobile_moving (w : World) (p : MobileMovingPacket) : World :=
  let w :=
    if w.packet_start.serial == p.serial then
      { w with
        packet_start := { w.packet_start with
          body := p.body, x := p.x, y := p.y, z := bswap16 p.z,
          direction := p.direction }
        packet_mobile_update := { w.packet_mobile_update with
          body := p.body, hue := p.hue, flags := p.flags, x := p.x, y := p.y,
          direction := p.direction, z := p.z } }
    else w
  { w with mobiles :=
      match find_mobile w.mobiles p.serial with
      | none => w.mobiles
      | some _ =>
          modifyFirstMobile p.serial
            (fun m => { m with packet_mobile_incoming :=
              m.packet_mobile_incoming.map (fun pi =>
                { pi with body := p.body, x := p.x, y := p.y, z := p.z,
                          direction := p.direction, hue := p.hue,
                          flags := p.flags, notoriety := p.notoriety }) })
            w.mobiles }

/-- Source `world_mobile_zone`: update the player ambient coordinates only. -/
def world_mobile_zone (w : World) (p : ZoneChangePacket) : World :=
  { w with
    packet_start := { w.packet_start with x := p.x, y := p.y, z := p.z }
    packet_mobile_update := { w.packet_mobile_update with
      x := p.x, y := p.y, z := bswap16 p.z } }

/-- Source `world_walked`: update ambient player position and patch the player's
stored mobile-incoming record. -/
def world_walked (w : World) (x y direction notoriety : Nat) : World :=
  let w := { w with
    packet_start := { w.packet_start with x := x, y := y, direction := direction }
    packet_mobile_update := { w.packet_mobile_update with
      x := x, y := y, direction := direction } }
  { w with mobiles :=
      match find_mobile w.mobiles w.packet_start.serial with
      | none => w.mobiles
      | some _ =>
          modifyFirstMobile w.packet_start.serial
            (fun m => { m with packet_mobile_incoming :=
              m.packet_mobile_incoming.map (fun pi =>
                { pi with x := x, y := y, direction := direction,
                          notoriety := notoriety }) })
            w.mobiles }

/-- Source `world_walk_cancel`: like `world_walked` but without notoriety. -/
def world_walk_cancel (w : World) (x y direction : Nat) : World :=
  let w := { w with
    packet_start := { w.packet_start with x := x, y := y, direction := direction }
    packet_mobile_update := { w.packet_mobile_update with
      x := x, y := y, direction := direction } }
  { w with mobiles :=
      match find_mobile w.mobiles w.packet_start.serial with
      | none => w.mobiles
      | some _ =>
          modifyFirstMobile w.packet_start.serial
            (fun m => { m with packet_mobile_incoming :=
              m.packet_mobile_incoming.map (fun pi =>
                { pi with x := x, y := y, direction := direction }) })
            w.mobiles }

/-- The parent serial an item derives from its socket variant (spec §3):
container → outer container, equipped → wearing mobile, otherwise none. -/
def parentSerialOf (i : Item) : Option Nat :=
  match i.socket with
  | Socket.container c => some c.item.parent_serial
  | Socket.mobile e => some e.parent_serial
  | _ => none

/-- One step of the ancestor chase with explicit fuel. -/
def hasAncestorAux (items : List Item) (s : Nat) : Nat → Item → Bool
  | 0, _ => false
  | fuel + 1, i =>
      match parentSerialOf i with
      | none => false
      | some p =>
          p == s ||
            (match world_find_item items p with
             | none => false
             | some j => hasAncestorAux items s fuel j)

/-- Whether `s` is an ancestor of item `i` through a chain of live items
linked by the parent relation. -/
def hasAncestor (items : List Item) (s : Nat) (i : Item) : Bool :=
  hasAncestorAux items s (items.length + 1) i

/-- Spec invariant 5: the two player ambient snapshots agree on x, y, body
and direction, and on z up to byte order (`packet_start.z` big-endian,
`packet_mobile_update.z` host order). -/
def playerSync (w : World) : Prop :=
  w.packet_start.x = w.packet_mobile_update.x ∧
  w.packet_start.y = w.packet_mobile_update.y ∧
  w.packet_start.body = w.packet_mobile_update.body ∧
  w.packet_start.direction = w.packet_mobile_update.direction ∧
  w.packet_start.z = bswap16 w.packet_mobile_update.z

instance (w : World) : Decidable (playerSync w) := by
  unfold playerSync
  infer_instance

/-- An abstract entry of the equipment list embedded in a mobile-incoming
packet, with field values as the C struct members hold them. -/
structure MobileItemEntry where
  serial : Nat
  item_id : Nat
  layer : Nat
  hue : Nat
  deriving DecidableEq

/-- Little-endian memory image of a 16-bit struct field. -/
def bytes2 (x : Nat) : List Nat :=
  [x % 256, x / 256 % 256]

/-- Little-endian memory image of a 32-bit struct field. -/
def bytes4 (x : Nat) : List Nat :=
  [x % 256, x / 256 % 256, x / 65536 % 256, x / 16777216 % 256]

/-- Memory image of one `uo_packet_fragment_mobile_item`: serial, item_id,
layer, and a hue exactly when the item_id carries the wire bit `0x8000`
(raw mask `0x0080`). -/
def encodeMobileItem (e : MobileItemEntry) : List Nat :=
  bytes4 e.serial ++ bytes2 e.item_id ++ [e.layer % 256] ++
    (if e.item_id &&& 128 != 0 then bytes2 e.hue else [])

/-- Memory image of a full equipment list: the entries followed by a
zero-serial terminator entry. -/
def encodeMobileItems (es : List MobileItemEntry) : List Nat :=
  (es.map encodeMobileItem).flatten ++ [0, 0, 0, 0, 0, 0, 0, 0, 0]

/-- Well-formed equipment entry: non-zero serial and fields within their
C integer widths. -/
def entryWf (e : MobileItemEntry) : Prop :=
  e.serial ≠ 0 ∧ e.serial < 4294967296 ∧ e.item_id < 65536 ∧
    e.layer < 256 ∧ e.hue < 65536

instance (e : MobileItemEntry) : Decidable (entryWf e) := by
  unfold entryWf
  infer_instance

/-- The equip record `read_equipped` synthesizes for one entry: parent is
the mobile's serial, the item_id keeps only its low 14 wire bits (raw mask
`htons 0x3fff` = `0xff3f`), and the hue is the entry's hue when present,
0 otherwise. -/
def equipOfEntry (parent_serial : Nat) (e : MobileItemEntry) : EquipPacket :=
  { serial := e.serial
    item_id := e.item_id &&& 0xff3f
    layer := e.layer
    parent_serial := parent_serial
    hue := if e.item_id &&& 128 != 0 then e.hue else 0 }

/-- A baseline player-start snapshot for concrete test worlds. -/
def startPacket0 : StartPacket :=
  { serial := 1, body := 0, x := 0, y := 0, z := 0, direction := 0 }

/-- A baseline player mobile-update snapshot for concrete test worlds. -/
def mobileUpdatePacket0 : MobileUpdatePacket :=
  { serial := 1, body := 0, hue := 0, flags := 0, x := 0, y := 0,
    direction := 0, z := 0 }

/-- An empty world with player serial 1 and synced snapshots. -/
def emptyWorld : World :=
  { packet_start := startPacket0, packet_mobile_update := mobileUpdatePacket0,
    mobiles := [], items := [], item_attach_sequence := 0 }

/-- A container-content entry with parent serial 5, used in concrete tests. -/
def ciParent5 : ContainerItem :=
  { serial := 100, item_id := 7, amount := 1, x := 2, y := 3,
    parent_serial := 5, hue := 0 }

/-- A concrete item sitting inside container serial 5. -/
def itemChildOf5 : Item :=
  { serial := 100, socket := Socket.container { item := ciParent5 },
    packet_container_open := none, attach_sequence := 0 }

/-- A world holding one item inside container serial 5. -/
def worldWithChildOf5 : World :=
  { emptyWorld with items := [itemChildOf5] }

/-- A concrete mobile with a stored status record at flags level 5. -/
def mobileWithStatus5 : Mobile :=
  { serial := 7, packet_mobile_incoming := none,
    packet_mobile_status := some { serial := 7, hits := 10, hits_max := 10, flags := 5 } }

/-- A world holding the mobile with serial 7. -/
def worldWithMobile7 : World :=
  { emptyWorld with mobiles := [mobileWithStatus5] }

/-- A world holding one item equipped on the unmanaged serial 128
(host-order value `0x80000000`). -/
def worldWithChildOf128 : World :=
  { emptyWorld with items :=
      [{ serial := 2,
         socket := Socket.mobile
           { serial := 2, item_id := 0, layer := 0, parent_serial := 128,
             hue := 0 },
         packet_container_open := none, attach_sequence := 0 }] }

theorem bswap16_bswap16 (x : Nat) (h : x < 65536) : bswap16 (bswap16 x) = x := by
  simp only [bswap16]
  have h1 : (x % 256 * 256 + x / 256 % 256) % 256 = x / 256 % 256 := by omega
  have h2 : (x % 256 * 256 + x / 256 % 256) / 256 = x % 256 := by omega
  rw [h1, h2]
  omega

theorem bswap16_lt (x : Nat) : bswap16 x < 65536 := by
  simp only [bswap16]
  omega

theorem is_parent_iff (i : Item) (p : Nat) :
    is_parent i p = true ↔ parentSerialOf i = some p := by
  cases h : i.socket <;> simp [is_parent, parentSerialOf, h]

theorem mem_modifyFirstItem {j : Item} {s : Nat} {f : Item → Item} :
    ∀ {items : List Item}, j ∈ modifyFirstItem s f items →
      j ∈ items ∨ ∃ i ∈ items, i.serial = s ∧ j = f i := by
  intro items
  induction items with
  | nil => simp [modifyFirstItem]
  | cons i rest ih =>
      simp only [modifyFirstItem]
      split
      · next hser =>
          intro hj
          rcases List.mem_cons.mp hj with hj | hj
          · exact Or.inr ⟨i, List.mem_cons_self i rest, by
              simpa using hser, hj⟩
          · exact Or.inl (List.mem_cons_of_mem i hj)
      · intro hj
        rcases List.mem_cons.mp hj with hj | hj
        · exact Or.inl (hj ▸ List.mem_cons_self i rest)
        · rcases ih hj with hj | ⟨i', hi', hs', he'⟩
          · exact Or.inl (List.mem_cons_of_mem i hj)
          · exact Or.inr ⟨i', List.mem_cons_of_mem i hi', hs', he'⟩

theorem mem_makeItemAnd {j : Item} {items : List Item} {s : Nat} {f : Item → Item}
    (hj : j ∈ makeItemAnd items s f) :
    j ∈ items ∨ ∃ i, i.serial = s ∧ j = f i := by
  unfold makeItemAnd at hj
  split at hj
  · rcases mem_modifyFirstItem hj with h | ⟨i, _, hs, he⟩
    · exact Or.inl h
    · exact Or.inr ⟨i, hs, he⟩
  · rcases List.mem_cons.mp hj with hj | hj
    · exact Or.inr ⟨newItem s, rfl, hj⟩
    · exact Or.inl hj

theorem modifyFirstItem_mem_or {j : Item} {s : Nat} {f : Item → Item} :
    ∀ {items : List Item}, j ∈ items →
      j ∈ modifyFirstItem s f items ∨ f j ∈ modifyFirstItem s f items := by
  intro items
  induction items with
  | nil => simp
  | cons i rest ih =>
      intro hj
      simp only [modifyFirstItem]
      rcases List.mem_cons.mp hj with hj | hj
      · subst hj
        split
        · exact Or.inr (List.mem_cons_self _ _)
        · exact Or.inl (List.mem_cons_self _ _)
      · split
        · exact Or.inl (List.mem_cons_of_mem _ hj)
        · rcases ih hj with h | h
          · exact Or.inl (List.mem_cons_of_mem _ h)
          · exact Or.inr (List.mem_cons_of_mem _ h)

theorem makeItemAnd_mem_or {j : Item} {items : List Item} {s : Nat} {f : Item → Item}
    (hj : j ∈ items) :
    j ∈ makeItemAnd items s f ∨ f j ∈ makeItemAnd items s f := by
  unfold makeItemAnd
  split
  · exact modifyFirstItem_mem_or hj
  · exact Or.inl (List.mem_cons_of_mem _ hj)

theorem find_modifyFirstItem {items : List Item} {s : Nat} {i₀ : Item}
    (h : world_find_item items s = some i₀) (f : Item → Item)
    (hf : ∀ i, (f i).serial = i.serial) :
    world_find_item (modifyFirstItem s f items) s = some (f i₀) := by
  induction items with
  | nil => simp [world_find_item] at h
  | cons i rest ih =>
      unfold world_find_item at h
      unfold modifyFirstItem
      by_cases hser : i.serial = s
      · rw [List.find?_cons_of_pos _ (by simpa using hser)] at h
        rw [if_pos (by simpa using hser)]
        unfold world_find_item
        rw [List.find?_cons_of_pos _ (by simp [hf, hser])]
        rw [Option.some.inj h]
      · rw [List.find?_cons_of_neg _ (by simpa using hser)] at h
        rw [if_neg (by simpa using hser)]
        unfold world_find_item
        rw [List.find?_cons_of_neg _ (by simpa using hser)]
        exact ih h

theorem find_makeItemAnd (items : List Item) (s : Nat) (f : Item → Item)
    (hf : ∀ i, (f i).serial = i.serial) :
    world_find_item (makeItemAnd items s f) s =
      some (f ((world_find_item items s).getD (newItem s))) := by
  unfold makeItemAnd
  cases h : world_find_item items s with
  | none =>
      simp only [Option.isSome_none, Bool.false_eq_true, if_false, Option.getD_none]
      unfold world_find_item
      rw [List.find?_cons_of_pos _ (by simp [hf, newItem])]
  | some i₀ =>
      simp only [Option.isSome_some, if_true, Option.getD_some]
      exact find_modifyFirstItem h f hf

theorem find_item_serial {items : List Item} {s : Nat} {i : Item}
    (h : world_find_item items s = some i) : i.serial = s := by
  have := List.find?_some h
  simpa using this

theorem find_mobile_serial {ms : List Mobile} {s : Nat} {m : Mobile}
    (h : find_mobile ms s = some m) : m.serial = s := by
  have := List.find?_some h
  simpa using this

theorem find_modifyFirstMobile {ms : List Mobile} {s : Nat} {m₀ : Mobile}
    (h : find_mobile ms s = some m₀) (f : Mobile → Mobile)
    (hf : ∀ m, (f m).serial = m.serial) :
    find_mobile (modifyFirstMobile s f ms) s = some (f m₀) := by
  induction ms with
  | nil => simp [find_mobile] at h
  | cons m rest ih =>
      unfold find_mobile at h
      unfold modifyFirstMobile
      by_cases hser : m.serial = s
      · rw [List.find?_cons_of_pos _ (by simpa using hser)] at h
        rw [if_pos (by simpa using hser)]
        unfold find_mobile
        rw [List.find?_cons_of_pos _ (by simp [hf, hser])]
        rw [Option.some.inj h]
      · rw [List.find?_cons_of_neg _ (by simpa using hser)] at h
        rw [if_neg (by simpa using hser)]
        unfold find_mobile
        rw [List.find?_cons_of_neg _ (by simpa using hser)]
        exact ih h

theorem find_makeMobileAnd (ms : List Mobile) (s : Nat) (f : Mobile → Mobile)
    (hf : ∀ m, (f m).serial = m.serial) :
    find_mobile (makeMobileAnd ms s f) s =
      some (f ((find_mobile ms s).getD (newMobile s))) := by
  unfold makeMobileAnd
  cases h : find_mobile ms s with
  | none =>
      simp only [Option.isSome_none, Bool.false_eq_true, if_false, Option.getD_none]
      unfold find_mobile
      rw [List.find?_cons_of_pos _ (by simp [hf, newMobile])]
  | some m₀ =>
      simp only [Option.isSome_some, if_true, Option.getD_some]
      exact find_modifyFirstMobile h f hf

theorem modifyFirstMobile_eq_self {s : Nat} {f : Mobile → Mobile} :
    ∀ {ms : List Mobile}, (∀ m, find_mobile ms s = some m → f m = m) →
      modifyFirstMobile s f ms = ms := by
  intro ms
  induction ms with
  | nil => intro _; rfl
  | cons m rest ih =>
      intro hid
      unfold modifyFirstMobile
      by_cases hser : m.serial = s
      · rw [if_pos (by simpa using hser)]
        rw [hid m (by unfold find_mobile
                      rw [List.find?_cons_of_pos _ (by simpa using hser)])]
      · rw [if_neg (by simpa using hser)]
        rw [ih (fun m' hm' => hid m' (by
          unfold find_mobile
          rw [List.find?_cons_of_neg _ (by simpa using hser)]
          exact hm'))]

theorem mem_foldl_subset {α : Type} (g : List Item → α → List Item)
    (hg : ∀ a c, ∀ j ∈ g a c, j ∈ a) :
    ∀ (cs : List α) (acc : List Item), ∀ j ∈ cs.foldl g acc, j ∈ acc := by
  intro cs
  induction cs with
  | nil => intro acc j hj; simpa using hj
  | cons c cs ih =>
      intro acc j hj
      rw [List.foldl_cons] at hj
      exact hg _ _ _ (ih _ j hj)

theorem mem_remove_item_tree :
    ∀ (fuel : Nat) (items : List Item) (p : Nat),
      ∀ j ∈ remove_item_tree fuel items p, j ∈ items := by
  intro fuel
  induction fuel with
  | zero => intro items p j hj; simpa [remove_item_tree] using hj
  | succ n ih =>
      intro items p j hj
      unfold remove_item_tree at hj
      have h := mem_foldl_subset (fun a (c : Item) => remove_item_tree n a c.serial)
        (fun a c j' hj' => ih a c.serial j' hj') _ _ j hj
      exact List.mem_of_mem_filter h

theorem remove_item_tree_no_parent (fuel : Nat) (items : List Item) (p : Nat)
    (hf : 1 ≤ fuel) :
    ∀ j ∈ remove_item_tree fuel items p, is_parent j p = false := by
  obtain ⟨n, rfl⟩ : ∃ n, fuel = n + 1 := ⟨fuel - 1, by omega⟩
  intro j hj
  unfold remove_item_tree at hj
  have h := mem_foldl_subset (fun a (c : Item) => remove_item_tree n a c.serial)
    (fun a c j' hj' => mem_remove_item_tree n a c.serial j' hj') _ _ j hj
  have := List.of_mem_filter h
  simpa using this

theorem removeFirstItem_serial_ne {s : Nat} :
    ∀ {items : List Item}, (items.map Item.serial).Nodup →
      ∀ j ∈ removeFirstItem s items, j.serial ≠ s := by
  intro items
  induction items with
  | nil => intro _ j hj; simp [removeFirstItem] at hj
  | cons i rest ih =>
      intro h j hj
      rw [List.map_cons, List.nodup_cons] at h
      unfold removeFirstItem at hj
      by_cases hser : i.serial = s
      · rw [if_pos (by simpa using hser)] at hj
        intro hjs
        exact h.1 (hser ▸ hjs ▸ List.mem_map_of_mem Item.serial hj)
      · rw [if_neg (by simpa using hser)] at hj
        rcases List.mem_cons.mp hj with rfl | hj
        · exact hser
        · exact ih h.2 j hj

theorem removeFirstMobile_serial_ne {s : Nat} :
    ∀ {ms : List Mobile}, (ms.map Mobile.serial).Nodup →
      ∀ m ∈ removeFirstMobile s ms, m.serial ≠ s := by
  intro ms
  induction ms with
  | nil => intro _ m hm; simp [removeFirstMobile] at hm
  | cons m₀ rest ih =>
      intro h m hm
      rw [List.map_cons, List.nodup_cons] at h
      unfold removeFirstMobile at hm
      by_cases hser : m₀.serial = s
      · rw [if_pos (by simpa using hser)] at hm
        intro hms
        exact h.1 (hser ▸ hms ▸ List.mem_map_of_mem Mobile.serial hm)
      · rw [if_neg (by simpa using hser)] at hm
        rcases List.mem_cons.mp hm with rfl | hm
        · exact hser
        · exact ih h.2 m hm

theorem find_item_eq_none {items : List Item} {s : Nat}
    (h : ∀ j ∈ items, j.serial ≠ s) : world_find_item items s = none := by
  unfold world_find_item
  rw [List.find?_eq_none]
  intro j hj
  simpa using h j hj

theorem find_mobile_eq_none {ms : List Mobile} {s : Nat}
    (h : ∀ m ∈ ms, m.serial ≠ s) : find_mobile ms s = none := by
  unfold find_mobile
  rw [List.find?_eq_none]
  intro m hm
  simpa using h m hm

theorem hasAncestorAux_exists {items : List Item} {s : Nat} :
    ∀ {fuel : Nat} {i : Item}, hasAncestorAux items s fuel i = true →
      ∃ c, (c = i ∨ c ∈ items) ∧ parentSerialOf c = some s := by
  intro fuel
  induction fuel with
  | zero => intro i h; simp [hasAncestorAux] at h
  | succ n ih =>
      intro i h
      unfold hasAncestorAux at h
      cases hp : parentSerialOf i with
      | none => rw [hp] at h; simp at h
      | some p =>
          rw [hp] at h
          rcases Bool.or_eq_true_iff.mp h with h | h
          · have hps : p = s := by simpa using h
            exact ⟨i, Or.inl rfl, by rw [hp, hps]⟩
          · cases hf : world_find_item items p with
            | none => rw [hf] at h; simp at h
            | some j =>
                rw [hf] at h
                obtain ⟨c, hc, hcp⟩ := ih h
                refine ⟨c, Or.inr ?_, hcp⟩
                rcases hc with rfl | hc
                · exact List.mem_of_find?_eq_some hf
                · exact hc

theorem read_equipped_loop_frame (ps : Nat) :
    ∀ (fuel : Nat) (w : World) (bytes : List Nat),
      (read_equipped_loop ps fuel w bytes).packet_start = w.packet_start ∧
        (read_equipped_loop ps fuel w bytes).packet_mobile_update =
          w.packet_mobile_update ∧
        (read_equipped_loop ps fuel w bytes).mobiles = w.mobiles := by
  intro fuel
  induction fuel with
  | zero => intro w bytes; exact ⟨rfl, rfl, rfl⟩
  | succ n ih =>
      intro w bytes
      simp only [read_equipped_loop]
      split
      · exact ⟨rfl, rfl, rfl⟩
      · split
        · exact ⟨rfl, rfl, rfl⟩
        · split
          · exact ih _ _
          · exact ih _ _

theorem stamped_serial_mem (seq : Nat) :
    ∀ (es : List ContainerItem) (acc : List Item) (j : Item),
      j ∈ es.foldl (container_content_step seq) acc → j.attach_sequence = seq →
      (∃ i ∈ acc, i.attach_sequence = seq ∧ j.serial = i.serial) ∨
        j.serial ∈ es.map ContainerItem.serial := by
  intro es
  induction es with
  | nil =>
      intro acc j hj hseq
      exact Or.inl ⟨j, by simpa using hj, hseq, rfl⟩
  | cons e es ih =>
      intro acc j hj hseq
      rw [List.foldl_cons] at hj
      rcases ih _ j hj hseq with ⟨i, hi, hiseq, hjs⟩ | h
      · unfold container_content_step at hi
        rcases mem_makeItemAnd hi with hi' | ⟨i₀, hs, rfl⟩
        · exact Or.inl ⟨i, hi', hiseq, hjs⟩
        · right
          rw [List.map_cons, List.mem_cons]
          left
          rw [hjs]
          exact hs
      · right
        rw [List.map_cons]
        exact List.mem_cons_of_mem _ h

theorem stamped_preserved (seq par t : Nat) :
    ∀ (es : List ContainerItem) (acc : List Item),
      (∀ e ∈ es, e.parent_serial = par) →
      (∃ j ∈ acc, j.serial = t ∧ j.attach_sequence = seq ∧
        parentSerialOf j = some par) →
      ∃ j ∈ es.foldl (container_content_step seq) acc,
        j.serial = t ∧ j.attach_sequence = seq ∧ parentSerialOf j = some par := by
  intro es
  induction es with
  | nil =>
      intro acc _ h
      simpa using h
  | cons e es ih =>
      intro acc hpar h
      obtain ⟨j, hj, hjs, hjseq, hjp⟩ := h
      rw [List.foldl_cons]
      apply ih _ (fun e' he' => hpar e' (List.mem_cons_of_mem _ he'))
      unfold container_content_step
      rcases makeItemAnd_mem_or (s := e.serial)
          (f := fun i => { i with socket := Socket.container { item := e },
                                  attach_sequence := seq }) hj with h' | h'
      · exact ⟨j, h', hjs, hjseq, hjp⟩
      · refine ⟨_, h', hjs, rfl, ?_⟩
        simp only [parentSerialOf]
        rw [hpar e (List.mem_cons_self _ _)]

theorem step_has_entry (seq : Nat) (acc : List Item) (e : ContainerItem) :
    ∃ j ∈ container_content_step seq acc e,
      j.serial = e.serial ∧ j.attach_sequence = seq ∧
        parentSerialOf j = some e.parent_serial := by
  unfold container_content_step
  have hf : ∀ i : Item,
      ({ i with socket := Socket.container { item := e },
                attach_sequence := seq } : Item).serial = i.serial :=
    fun i => rfl
  have h := find_makeItemAnd acc e.serial _ hf
  refine ⟨_, List.mem_of_find?_eq_some h, ?_, rfl, rfl⟩
  cases hfind : world_find_item acc e.serial with
  | none => rfl
  | some i₀ => simpa using find_item_serial hfind

theorem entries_stamped (seq par : Nat) :
    ∀ (es : List ContainerItem) (acc : List Item),
      (∀ e ∈ es, e.parent_serial = par) →
      ∀ s ∈ es.map ContainerItem.serial,
        ∃ j ∈ es.foldl (container_content_step seq) acc,
          j.serial = s ∧ j.attach_sequence = seq ∧ parentSerialOf j = some par := by
  intro es
  induction es with
  | nil => simp
  | cons e es ih =>
      intro acc hpar s hs
      rw [List.map_cons, List.mem_cons] at hs
      rw [List.foldl_cons]
      rcases hs with rfl | hs
      · obtain ⟨j, hj, hjs, hjseq, hjp⟩ := step_has_entry seq acc e
        refine stamped_preserved seq par e.serial es _
          (fun e' he' => hpar e' (List.mem_cons_of_mem _ he')) ⟨j, hj, hjs, hjseq, ?_⟩
        rw [hjp, hpar e (List.mem_cons_self _ _)]
      · exact ih _ (fun e' he' => hpar e' (List.mem_cons_of_mem _ he')) s hs

/-- C1 (amended): for a container-content call whose entry list is non-empty
and whose entries all carry the same parent serial `par`, and whose new
generation value differs from every live item's `attach_sequence` (no
counter wraparound collision), the live items whose parent is `par` after
the call are exactly the serials listed in the packet.  When the entry list
is empty the item set is left unchanged (no sweep happens). -/
theorem claim_C1 (w : World) (p : ContainerContentPacket) (par : Nat)
    (hfresh : ∀ i ∈ w.items,
      i.attach_sequence ≠ (w.item_attach_sequence + 1) % 4294967296)
    (hpar : ∀ e ∈ p.items, e.parent_serial = par) :
    (p.items = [] → (world_container_content w p).items = w.items) ∧
    (p.items ≠ [] →
      ∀ s : Nat,
        (∃ i ∈ (world_container_content w p).items,
          parentSerialOf i = some par ∧ i.serial = s) ↔
          s ∈ p.items.map ContainerItem.serial) := by
  constructor
  · intro h
    simp [world_container_content, h]
  · intro hne s
    obtain ⟨e0, rest, hp⟩ : ∃ e0 rest, p.items = e0 :: rest := by
      cases hp : p.items with
      | nil => exact absurd hp hne
      | cons a l => exact ⟨a, l, rfl⟩
    have he0 : e0.parent_serial = par := hpar e0 (by rw [hp]; exact List.mem_cons_self _ _)
    simp only [world_container_content, world_sweep_container_update_inside, hp]
    constructor
    · rintro ⟨i, hi, hip, rfl⟩
      obtain ⟨hi1, hcond⟩ := List.mem_filter.mp hi
      have hip' : is_parent i e0.parent_serial = true := by
        rw [is_parent_iff, hip, he0]
      have hseq : i.attach_sequence = (w.item_attach_sequence + 1) % 4294967296 := by
        simpa [hip'] using hcond
      rcases stamped_serial_mem _ (e0 :: rest) w.items i hi1 hseq with
        ⟨i', hi', hiseq', _⟩ | h
      · exact absurd hiseq' (hfresh i' hi')
      · exact h
    · intro hs
      obtain ⟨j, hj, hjs, hjseq, hjp⟩ :=
        entries_stamped ((w.item_attach_sequence + 1) % 4294967296) par
          (e0 :: rest) w.items (fun e he => hpar e (by rw [hp]; exact he)) s hs
      refine ⟨j, ?_, hjp, hjs⟩
      apply List.mem_filter.mpr
      exact ⟨hj, by simp [hjseq]⟩

/-- C1 is false as frozen: with an empty entry list no sweep happens, so an
item formerly inside the container survives — here item 100, still a child
of container 5 after `world_container_content` with the empty list. -/
theorem claim_C1_counterexample :
    ¬ (∀ i ∈ (world_container_content worldWithChildOf5 { items := [] }).items,
        parentSerialOf i ≠ some 5) := by decide

theorem claim_C1_witness :
    (([ciParent5] : List ContainerItem) ≠ []) ∧
    ((∃ i ∈ (world_container_content worldWithChildOf5 { items := [ciParent5] }).items,
        parentSerialOf i = some 5 ∧ i.serial = 100) ↔
      100 ∈ [ciParent5].map ContainerItem.serial) :=
  ⟨by decide,
   (claim_C1 worldWithChildOf5 { items := [ciParent5] } 5 (by decide)
     (by decide)).2 (by decide) 100⟩

theorem mem_modifyFirstItem_of_ne {i' : Item} {s : Nat} {f : Item → Item} :
    ∀ {items : List Item}, i' ∈ items → i'.serial ≠ s →
      i' ∈ modifyFirstItem s f items := by
  intro items
  induction items with
  | nil => simp
  | cons i rest ih =>
      intro hi hne
      unfold modifyFirstItem
      rcases List.mem_cons.mp hi with rfl | hi
      · rw [if_neg (by simpa using hne)]
        exact List.mem_cons_self _ _
      · split
        · exact List.mem_cons_of_mem _ hi
        · exact List.mem_cons_of_mem _ (ih hi hne)

/-- C5: a serial whose host-order value (`ntohl`) is at least `0x80000000`
lies outside the mobile and item namespaces; `world_remove_serial` leaves
the world mirror completely unchanged. -/
theorem claim_C5 (w : World) (s : Nat) (h : 0x80000000 ≤ bswap32 s) :
    world_remove_serial w s = w := by
  unfold world_remove_serial
  rw [if_neg (by omega), if_neg (by omega)]

theorem claim_C5_witness :
    0x80000000 ≤ bswap32 128 ∧ world_remove_serial worldWithChildOf5 128 = worldWithChildOf5 :=
  ⟨by decide, claim_C5 worldWithChildOf5 128 (by decide)⟩

/-- C6: a rev-6 world-item packet is stored under its serial with the wire
high bit masked off (raw mask `htonl 0x7fffffff` = `0xffffff7f`), the ground
socket set to the rev-7 conversion; a rev-7 packet is stored under the
unmasked serial with the packet itself as the ground socket. -/
theorem claim_C6 (w : World) (p6 : WorldItemPacket) (p7 : WorldItem7Packet) :
    world_find_item (world_world_item w p6).items (p6.serial &&& 0xffffff7f) =
      some { (world_find_item w.items (p6.serial &&& 0xffffff7f)).getD
               (newItem (p6.serial &&& 0xffffff7f)) with
             socket := Socket.ground (world_item_to_7 p6) } ∧
    world_find_item (world_world_item_7 w p7).items p7.serial =
      some { (world_find_item w.items p7.serial).getD (newItem p7.serial) with
             socket := Socket.ground p7 } := by
  constructor
  · exact find_makeItemAnd w.items (p6.serial &&& 0xffffff7f)
      (fun i => { i with socket := Socket.ground (world_item_to_7 p6) })
      (fun i => rfl)
  · exact find_makeItemAnd w.items p7.serial
      (fun i => { i with socket := Socket.ground p7 }) (fun i => rfl)

/-- C8: a mobile-update or mobile-moving packet whose serial has no mobile
record leaves the mobile list unchanged — no record is created. -/
theorem claim_C8 (w : World) (pu : MobileUpdatePacket) (pm : MobileMovingPacket)
    (hu : find_mobile w.mobiles pu.serial = none)
    (hm : find_mobile w.mobiles pm.serial = none) :
    (world_mobile_update w pu).mobiles = w.mobiles ∧
    (world_mobile_moving w pm).mobiles = w.mobiles := by
  constructor
  · unfold world_mobile_update
    split
    · dsimp only
      rw [hu]
    · dsimp only
      rw [hu]
  · unfold world_mobile_moving
    split
    · dsimp only
      rw [hm]
    · dsimp only
      rw [hm]

theorem claim_C8_witness :
    find_mobile emptyWorld.mobiles (2 : Nat) = none ∧
    (world_mobile_update emptyWorld
      { serial := 2, body := 3, hue := 4, flags := 5, x := 6, y := 7,
        direction := 8, z := 9 }).mobiles = emptyWorld.mobiles :=
  ⟨by decide,
   (claim_C8 emptyWorld
     { serial := 2, body := 3, hue := 4, flags := 5, x := 6, y := 7,
       direction := 8, z := 9 }
     { serial := 2, body := 3, x := 6, y := 7, z := 9, direction := 8,
       hue := 4, flags := 5, notoriety := 1 }
     (by decide) (by decide)).1⟩

/-- C10: when a mobile-update or mobile-moving packet carries the player
serial but no mobile record exists, the ambient snapshots are still updated
from the packet before the unknown-mobile warning path returns. -/
theorem claim_C10 (w : World) (pu : MobileUpdatePacket) (pm : MobileMovingPacket)
    (hpu : w.packet_start.serial = pu.serial)
    (hpm : w.packet_start.serial = pm.serial)
    (hu : find_mobile w.mobiles pu.serial = none)
    (hm : find_mobile w.mobiles pm.serial = none) :
    ((world_mobile_update w pu).packet_mobile_update = pu ∧
      (world_mobile_update w pu).packet_start.x = pu.x ∧
      (world_mobile_update w pu).packet_start.y = pu.y ∧
      (world_mobile_update w pu).packet_start.body = pu.body ∧
      (world_mobile_update w pu).packet_start.direction = pu.direction ∧
      (world_mobile_update w pu).packet_start.z = bswap16 pu.z) ∧
    ((world_mobile_moving w pm).packet_mobile_update.x = pm.x ∧
      (world_mobile_moving w pm).packet_mobile_update.y = pm.y ∧
      (world_mobile_moving w pm).packet_mobile_update.body = pm.body ∧
      (world_mobile_moving w pm).packet_mobile_update.direction = pm.direction ∧
      (world_mobile_moving w pm).packet_mobile_update.hue = pm.hue ∧
      (world_mobile_moving w pm).packet_mobile_update.flags = pm.flags ∧
      (world_mobile_moving w pm).packet_mobile_update.z = pm.z ∧
      (world_mobile_moving w pm).packet_start.x = pm.x ∧
      (world_mobile_moving w pm).packet_start.y = pm.y ∧
      (world_mobile_moving w pm).packet_start.body = pm.body ∧
      (world_mobile_moving w pm).packet_start.direction = pm.direction ∧
      (world_mobile_moving w pm).packet_start.z = bswap16 pm.z) := by
  constructor
  · unfold world_mobile_update
    rw [if_pos (by simpa using hpu)]
    exact ⟨rfl, rfl, rfl, rfl, rfl, rfl⟩
  · unfold world_mobile_moving
    rw [if_pos (by simpa using hpm)]
    exact ⟨rfl, rfl, rfl, rfl, rfl, rfl, rfl, rfl, rfl, rfl, rfl, rfl⟩

theorem claim_C10_witness :
    emptyWorld.packet_start.serial = (1 : Nat) ∧
    find_mobile emptyWorld.mobiles (1 : Nat) = none ∧
    (world_mobile_update emptyWorld
      { serial := 1, body := 3, hue := 4, flags := 5, x := 6, y := 7,
        direction := 8, z := 9 }).packet_start.x = 6 :=
  ⟨by decide, by decide,
   ((claim_C10 emptyWorld
     { serial := 1, body := 3, hue := 4, flags := 5, x := 6, y := 7,
       direction := 8, z := 9 }
     { serial := 1, body := 3, x := 6, y := 7, z := 9, direction := 8,
       hue := 4, flags := 5, notoriety := 1 }
     (by decide) (by decide) (by decide) (by decide)).1).2.1⟩

/-- C9: `open_container` on an item already present replaces only that
item's stored container-open record: its socket and generation are kept,
every other item is untouched, and mobiles, ambient snapshots and the
attach counter are unchanged; the rev-7 form delegates to the rev-6 one. -/
theorem claim_C9 (w : World) (p : ContainerOpenPacket) (p7 : ContainerOpen7Packet)
    (i₀ : Item) (hfound : world_find_item w.items p.serial = some i₀) :
    (world_container_open w p).mobiles = w.mobiles ∧
    (world_container_open w p).packet_start = w.packet_start ∧
    (world_container_open w p).packet_mobile_update = w.packet_mobile_update ∧
    (world_container_open w p).item_attach_sequence = w.item_attach_sequence ∧
    world_find_item (world_container_open w p).items p.serial =
      some { i₀ with packet_container_open := some p } ∧
    (∀ i ∈ (world_container_open w p).items, ∃ i' ∈ w.items,
      i.serial = i'.serial ∧ i.socket = i'.socket ∧
        i.attach_sequence = i'.attach_sequence) ∧
    (∀ i' ∈ w.items, i'.serial ≠ p.serial →
      i' ∈ (world_container_open w p).items) ∧
    world_container_open_7 w p7 = world_container_open w p7.base := by
  have hitems : (world_container_open w p).items =
      modifyFirstItem p.serial
        (fun i => { i with packet_container_open := some p }) w.items := by
    show makeItemAnd w.items p.serial
        (fun i => { i with packet_container_open := some p }) = _
    unfold makeItemAnd
    rw [if_pos (by rw [hfound]; rfl)]
  refine ⟨rfl, rfl, rfl, rfl, ?_, ?_, ?_, rfl⟩
  · have h := find_makeItemAnd w.items p.serial
      (fun i => { i with packet_container_open := some p }) (fun i => rfl)
    rw [hfound] at h
    exact h
  · intro i hi
    rw [hitems] at hi
    rcases mem_modifyFirstItem hi with hi' | ⟨i', hi', _, rfl⟩
    · exact ⟨i, hi', rfl, rfl, rfl⟩
    · exact ⟨i', hi', rfl, rfl, rfl⟩
  · intro i' hi' hne
    rw [hitems]
    exact mem_modifyFirstItem_of_ne hi' hne

theorem claim_C9_witness :
    world_find_item worldWithChildOf5.items (100 : Nat) = some itemChildOf5 ∧
    world_find_item
        (world_container_open worldWithChildOf5
          { serial := 100, gump_id := 3 }).items 100 =
      some { itemChildOf5 with
             packet_container_open := some { serial := 100, gump_id := 3 } } :=
  ⟨by decide,
   (claim_C9 worldWithChildOf5 { serial := 100, gump_id := 3 }
     { base := { serial := 100, gump_id := 3 }, item_count := 0 }
     itemChildOf5 (by decide)).2.2.2.2.1⟩

/-- C2: `world_mobile_status` replaces the stored status record exactly when
the incoming packet's `flags` is at least the stored record's `flags`; a
strictly lower `flags` leaves the whole world unchanged; with no stored
record (or no mobile at all) the packet is always stored. -/
theorem claim_C2 (w : World) (p : MobileStatusPacket) :
    (∀ m₀ st, find_mobile w.mobiles p.serial = some m₀ →
      m₀.packet_mobile_status = some st → st.flags ≤ p.flags →
      find_mobile (world_mobile_status w p).mobiles p.serial =
        some { m₀ with packet_mobile_status := some p }) ∧
    (∀ m₀ st, find_mobile w.mobiles p.serial = some m₀ →
      m₀.packet_mobile_status = some st → p.flags < st.flags →
      world_mobile_status w p = w) ∧
    (∀ m₀, find_mobile w.mobiles p.serial = some m₀ →
      m₀.packet_mobile_status = none →
      find_mobile (world_mobile_status w p).mobiles p.serial =
        some { m₀ with packet_mobile_status := some p }) ∧
    (find_mobile w.mobiles p.serial = none →
      find_mobile (world_mobile_status w p).mobiles p.serial =
        some { newMobile p.serial with packet_mobile_status := some p }) := by
  have hf : ∀ m : Mobile, (mobile_status_apply p m).serial = m.serial := by
    intro m
    unfold mobile_status_apply
    split
    · rfl
    · split <;> rfl
  refine ⟨?_, ?_, ?_, ?_⟩
  · intro m₀ st hm hst hle
    have h := find_makeMobileAnd w.mobiles p.serial _ hf
    rw [hm, Option.getD_some] at h
    refine h.trans (congrArg some ?_)
    unfold mobile_status_apply
    rw [hst]
    exact if_pos hle
  · intro m₀ st hm hst hlt
    have hmob : (world_mobile_status w p).mobiles = w.mobiles := by
      show makeMobileAnd w.mobiles p.serial (mobile_status_apply p) = w.mobiles
      unfold makeMobileAnd
      rw [if_pos (by rw [hm]; rfl)]
      apply modifyFirstMobile_eq_self
      intro m hm'
      rw [hm] at hm'
      obtain rfl : m₀ = m := Option.some.inj hm'
      unfold mobile_status_apply
      rw [hst]
      exact if_neg (by omega)
    have hw : world_mobile_status w p =
        { w with mobiles := (world_mobile_status w p).mobiles } := rfl
    rw [hmob] at hw
    exact hw
  · intro m₀ hm hst
    have h := find_makeMobileAnd w.mobiles p.serial _ hf
    rw [hm, Option.getD_some] at h
    refine h.trans (congrArg some ?_)
    unfold mobile_status_apply
    rw [hst]
  · intro hnone
    have h := find_makeMobileAnd w.mobiles p.serial _ hf
    rw [hnone, Option.getD_none] at h
    exact h

theorem claim_C2_witness :
    ((5 : Nat) ≤ 5) ∧
    find_mobile (world_mobile_status worldWithMobile7
        { serial := 7, hits := 1, hits_max := 2, flags := 5 }).mobiles 7 =
      some { mobileWithStatus5 with packet_mobile_status := some { serial := 7, hits := 1, hits_max := 2, flags := 5 } } ∧
    world_mobile_status worldWithMobile7
        { serial := 7, hits := 1, hits_max := 2, flags := 4 } = worldWithMobile7 :=
  ⟨by decide,
   (claim_C2 worldWithMobile7
     { serial := 7, hits := 1, hits_max := 2, flags := 5 }).1 mobileWithStatus5
     { serial := 7, hits := 10, hits_max := 10, flags := 5 }
     (by decide) (by decide) (by decide),
   (claim_C2 worldWithMobile7
     { serial := 7, hits := 1, hits_max := 2, flags := 4 }).2.1 mobileWithStatus5
     { serial := 7, hits := 10, hits_max := 10, flags := 5 }
     (by decide) (by decide) (by decide)⟩

/-- C4: every world-mirror operation that touches the player's ambient
state (mobile-incoming, mobile-update, mobile-moving, zone-change, walked,
walk-cancel) preserves the snapshot agreement: `packet_start` and
`packet_mobile_update` agree on x, y, body and direction, and their z
fields hold the same value with `packet_start.z` in big-endian byte order
and `packet_mobile_update.z` in host order. -/
theorem claim_C4 (w : World) (pin : MobileIncomingPacket)
    (pu : MobileUpdatePacket) (pm : MobileMovingPacket) (pz : ZoneChangePacket)
    (x y direction notoriety : Nat)
    (hsync : playerSync w) (hz : pz.z < 65536) :
    playerSync (world_mobile_incoming w pin) ∧
    playerSync (world_mobile_update w pu) ∧
    playerSync (world_mobile_moving w pm) ∧
    playerSync (world_mobile_zone w pz) ∧
    playerSync (world_walked w x y direction notoriety) ∧
    playerSync (world_walk_cancel w x y direction) := by
  obtain ⟨h1, h2, h3, h4, h5⟩ := hsync
  refine ⟨?_, ?_, ?_, ?_, ?_, ?_⟩
  · obtain ⟨hs, hu, -⟩ := read_equipped_loop_frame pin.serial
      pin.itemBytes.length (mobile_incoming_store w pin) pin.itemBytes
    unfold playerSync
    rw [show (world_mobile_incoming w pin).packet_start =
          (mobile_incoming_store w pin).packet_start from hs,
        show (world_mobile_incoming w pin).packet_mobile_update =
          (mobile_incoming_store w pin).packet_mobile_update from hu]
    unfold mobile_incoming_store mobile_incoming_player
    dsimp only
    split
    · exact ⟨rfl, rfl, rfl, rfl, rfl⟩
    · exact ⟨h1, h2, h3, h4, h5⟩
  · unfold playerSync world_mobile_update
    dsimp only
    split
    · exact ⟨rfl, rfl, rfl, rfl, rfl⟩
    · exact ⟨h1, h2, h3, h4, h5⟩
  · unfold playerSync world_mobile_moving
    dsimp only
    split
    · exact ⟨rfl, rfl, rfl, rfl, rfl⟩
    · exact ⟨h1, h2, h3, h4, h5⟩
  · unfold playerSync world_mobile_zone
    dsimp only
    exact ⟨rfl, rfl, h3, h4, (bswap16_bswap16 pz.z hz).symm⟩
  · unfold playerSync world_walked
    dsimp only
    exact ⟨rfl, rfl, h3, rfl, h5⟩
  · unfold playerSync world_walk_cancel
    dsimp only
    exact ⟨rfl, rfl, h3, rfl, h5⟩

theorem claim_C4_witness :
    playerSync emptyWorld ∧ ((5 : Nat) < 65536) ∧
    playerSync (world_mobile_zone emptyWorld { x := 1, y := 2, z := 5 }) :=
  ⟨by decide, by decide,
   (claim_C4 emptyWorld
     { serial := 9, body := 0, x := 0, y := 0, z := 0, direction := 0,
       hue := 0, flags := 0, notoriety := 0, itemBytes := [] }
     { serial := 9, body := 0, hue := 0, flags := 0, x := 0, y := 0,
       direction := 0, z := 0 }
     { serial := 9, body := 0, x := 0, y := 0, z := 0, direction := 0,
       hue := 0, flags := 0, notoriety := 0 }
     { x := 1, y := 2, z := 5 } 0 0 0 0 (by decide) (by decide)).2.2.2.1⟩

/-- C3 (amended): for a serial inside the managed namespaces (host-order
value below `0x80000000`) and a mirror whose item serials and mobile
serials are unique, `world_remove_serial` deletes the entity the serial
classifies (mobile below `0x40000000`, item otherwise) and afterwards no
live item has that serial as an ancestor through the chain of live parent
links. -/
theorem claim_C3 (w : World) (s : Nat)
    (hrange : bswap32 s < 0x80000000)
    (hni : (w.items.map Item.serial).Nodup)
    (hnm : (w.mobiles.map Mobile.serial).Nodup) :
    (bswap32 s < 0x40000000 →
      find_mobile (world_remove_serial w s).mobiles s = none) ∧
    (0x40000000 ≤ bswap32 s →
      world_find_item (world_remove_serial w s).items s = none) ∧
    (∀ i ∈ (world_remove_serial w s).items,
      hasAncestor (world_remove_serial w s).items s i = false) := by
  have hnoparent : ∀ i ∈ (world_remove_serial w s).items, is_parent i s = false := by
    unfold world_remove_serial
    by_cases h1 : bswap32 s < 0x40000000
    · rw [if_pos h1]
      unfold world_remove_mobile_serial
      dsimp only
      exact remove_item_tree_no_parent _ _ _ (by omega)
    · rw [if_neg h1, if_pos (by omega)]
      unfold world_remove_item_serial
      dsimp only
      exact remove_item_tree_no_parent _ _ _ (by omega)
  have hanc : ∀ i ∈ (world_remove_serial w s).items,
      hasAncestor (world_remove_serial w s).items s i = false := by
    intro i hi
    cases hA : hasAncestor (world_remove_serial w s).items s i
    · rfl
    · exfalso
      obtain ⟨c, hc, hcp⟩ :=
        hasAncestorAux_exists (show hasAncestorAux _ s _ i = true from hA)
      have hcmem : c ∈ (world_remove_serial w s).items := by
        rcases hc with rfl | hc
        · exact hi
        · exact hc
      have hfalse := hnoparent c hcmem
      rw [(is_parent_iff c s).mpr hcp] at hfalse
      exact Bool.noConfusion hfalse
  refine ⟨?_, ?_, hanc⟩
  · intro h1
    unfold world_remove_serial
    rw [if_pos h1]
    unfold world_remove_mobile_serial
    dsimp only
    exact find_mobile_eq_none (removeFirstMobile_serial_ne hnm)
  · intro h2
    unfold world_remove_serial
    rw [if_neg (by omega), if_pos (by omega)]
    unfold world_remove_item_serial
    dsimp only
    apply find_item_eq_none
    intro j hj
    exact removeFirstItem_serial_ne hni j (mem_remove_item_tree _ _ _ j hj)

/-- C3 is false as frozen for serials outside the managed namespaces: with
serial 128 (host-order `0x80000000`) `world_remove_serial` does nothing, so
the equipped item whose parent is 128 still has it as an ancestor. -/
theorem claim_C3_counterexample :
    ¬ (∀ i ∈ (world_remove_serial worldWithChildOf128 128).items,
        hasAncestor (world_remove_serial worldWithChildOf128 128).items 128 i
          = false) := by
  decide

theorem claim_C3_witness :
    bswap32 100 < 0x80000000 ∧
    world_find_item (world_remove_serial worldWithChildOf5 100).items 100 = none :=
  ⟨by decide,
   (claim_C3 worldWithChildOf5 100 (by decide) (by decide) (by decide)).2.1
     (by decide)⟩

theorem encodeMobileItems_cons (e : MobileItemEntry) (es : List MobileItemEntry) :
    encodeMobileItems (e :: es) = encodeMobileItem e ++ encodeMobileItems es := by
  unfold encodeMobileItems
  simp [List.append_assoc]

theorem encodeMobileItems_length (es : List MobileItemEntry) :
    9 ≤ (encodeMobileItems es).length := by
  unfold encodeMobileItems
  simp

theorem read_equipped_loop_encode (ps : Nat) :
    ∀ (es : List MobileItemEntry), (∀ e ∈ es, entryWf e) →
      ∀ (w : World) (fuel : Nat), (encodeMobileItems es).length ≤ fuel →
      read_equipped_loop ps fuel w (encodeMobileItems es) =
        es.foldl (fun w' e => world_equip w' (equipOfEntry ps e)) w := by
  intro es
  induction es with
  | nil =>
      intro _ w fuel hfuel
      have h9 : (encodeMobileItems ([] : List MobileItemEntry)).length = 9 := rfl
      obtain ⟨n, rfl⟩ : ∃ n, fuel = n + 1 := ⟨fuel - 1, by omega⟩
      rfl
  | cons e es ih =>
      intro hwf w fuel hfuel
      obtain ⟨hser0, hser, hid, hlay, hhue⟩ := hwf e (List.mem_cons_self _ _)
      have hwf' := fun e' he' => hwf e' (List.mem_cons_of_mem _ he')
      rw [encodeMobileItems_cons] at hfuel ⊢
      have htail := encodeMobileItems_length es
      by_cases hbit : (e.item_id &&& 128 != 0) = true
      · have hlen : (encodeMobileItem e).length = 9 := by
          unfold encodeMobileItem bytes4 bytes2
          rw [if_pos hbit]
          rfl
        have henc : encodeMobileItem e ++ encodeMobileItems es =
            e.serial % 256 :: e.serial / 256 % 256 :: e.serial / 65536 % 256 ::
            e.serial / 16777216 % 256 :: e.item_id % 256 ::
            e.item_id / 256 % 256 :: e.layer % 256 :: e.hue % 256 ::
            e.hue / 256 % 256 :: encodeMobileItems es := by
          unfold encodeMobileItem bytes4 bytes2
          rw [if_pos hbit]
          simp
        obtain ⟨n, rfl⟩ : ∃ n, fuel = n + 1 := ⟨fuel - 1, by
          rw [List.length_append, hlen] at hfuel
          omega⟩
        rw [henc]
        simp only [read_equipped_loop]
        rw [if_neg (by simp)]
        have h4 : leRead4 (e.serial % 256 :: e.serial / 256 % 256 ::
            e.serial / 65536 % 256 :: e.serial / 16777216 % 256 ::
            e.item_id % 256 :: e.item_id / 256 % 256 :: e.layer % 256 ::
            e.hue % 256 :: e.hue / 256 % 256 :: encodeMobileItems es) = e.serial := by
          show e.serial % 256 + 256 * (e.serial / 256 % 256) +
            65536 * (e.serial / 65536 % 256) +
            16777216 * (e.serial / 16777216 % 256) = e.serial
          omega
        rw [h4, if_neg (by simpa using hser0)]
        have h2 : leRead2 (List.drop 4 (e.serial % 256 :: e.serial / 256 % 256 ::
            e.serial / 65536 % 256 :: e.serial / 16777216 % 256 ::
            e.item_id % 256 :: e.item_id / 256 % 256 :: e.layer % 256 ::
            e.hue % 256 :: e.hue / 256 % 256 :: encodeMobileItems es)) = e.item_id := by
          show e.item_id % 256 + 256 * (e.item_id / 256 % 256) = e.item_id
          omega
        rw [h2]
        have hl : (e.serial % 256 :: e.serial / 256 % 256 ::
            e.serial / 65536 % 256 :: e.serial / 16777216 % 256 ::
            e.item_id % 256 :: e.item_id / 256 % 256 :: e.layer % 256 ::
            e.hue % 256 :: e.hue / 256 % 256 :: encodeMobileItems es).getD 6 0
            = e.layer := by
          show e.layer % 256 = e.layer
          omega
        rw [hl, if_pos hbit]
        have h7 : leRead2 (List.drop 7 (e.serial % 256 :: e.serial / 256 % 256 ::
            e.serial / 65536 % 256 :: e.serial / 16777216 % 256 ::
            e.item_id % 256 :: e.item_id / 256 % 256 :: e.layer % 256 ::
            e.hue % 256 :: e.hue / 256 % 256 :: encodeMobileItems es)) = e.hue := by
          show e.hue % 256 + 256 * (e.hue / 256 % 256) = e.hue
          omega
        rw [h7, List.foldl_cons]
        have heq : equipOfEntry ps e =
            { serial := e.serial, item_id := e.item_id &&& 0xff3f,
              layer := e.layer, parent_serial := ps, hue := e.hue } := by
          unfold equipOfEntry
          rw [if_pos hbit]
        rw [heq]
        exact ih hwf' _ n (by
          rw [List.length_append, hlen] at hfuel
          omega)
      · have hlen : (encodeMobileItem e).length = 7 := by
          unfold encodeMobileItem bytes4 bytes2
          rw [if_neg hbit]
          rfl
        have henc : encodeMobileItem e ++ encodeMobileItems es =
            e.serial % 256 :: e.serial / 256 % 256 :: e.serial / 65536 % 256 ::
            e.serial / 16777216 % 256 :: e.item_id % 256 ::
            e.item_id / 256 % 256 :: e.layer % 256 :: encodeMobileItems es := by
          unfold encodeMobileItem bytes4 bytes2
          rw [if_neg hbit]
          simp
        obtain ⟨n, rfl⟩ : ∃ n, fuel = n + 1 := ⟨fuel - 1, by
          rw [List.length_append, hlen] at hfuel
          omega⟩
        rw [henc]
        simp only [read_equipped_loop]
        rw [if_neg (by simp; omega)]
        have h4 : leRead4 (e.serial % 256 :: e.serial / 256 % 256 ::
            e.serial / 65536 % 256 :: e.serial / 16777216 % 256 ::
            e.item_id % 256 :: e.item_id / 256 % 256 :: e.layer % 256 ::
            encodeMobileItems es) = e.serial := by
          show e.serial % 256 + 256 * (e.serial / 256 % 256) +
            65536 * (e.serial / 65536 % 256) +
            16777216 * (e.serial / 16777216 % 256) = e.serial
          omega
        rw [h4, if_neg (by simpa using hser0)]
        have h2 : leRead2 (List.drop 4 (e.serial % 256 :: e.serial / 256 % 256 ::
            e.serial / 65536 % 256 :: e.serial / 16777216 % 256 ::
            e.item_id % 256 :: e.item_id / 256 % 256 :: e.layer % 256 ::
            encodeMobileItems es)) = e.item_id := by
          show e.item_id % 256 + 256 * (e.item_id / 256 % 256) = e.item_id
          omega
        rw [h2]
        have hl : (e.serial % 256 :: e.serial / 256 % 256 ::
            e.serial / 65536 % 256 :: e.serial / 16777216 % 256 ::
            e.item_id % 256 :: e.item_id / 256 % 256 :: e.layer % 256 ::
            encodeMobileItems es).getD 6 0 = e.layer := by
          show e.layer % 256 = e.layer
          omega
        rw [hl, if_neg hbit, List.foldl_cons]
        have heq : equipOfEntry ps e =
            { serial := e.serial, item_id := e.item_id &&& 0xff3f,
              layer := e.layer, parent_serial := ps, hue := 0 } := by
          unfold equipOfEntry
          rw [if_neg hbit]
        rw [heq]
        exact ih hwf' _ n (by
          rw [List.length_append, hlen] at hfuel
          omega)

/-- C7: `world_mobile_incoming` parses the embedded equipment area — a
variable-width array terminated by a zero serial in which an entry carries
a 2-byte hue exactly when wire bit `0x8000` of its item_id (raw bit
`0x0080`) is set — and performs one `world_equip` per non-zero-serial
entry, with the equip record's parent equal to the packet serial and hue
equal to the entry's hue when present, 0 otherwise. -/
theorem claim_C7 (w : World) (p : MobileIncomingPacket)
    (es : List MobileItemEntry)
    (hwf : ∀ e ∈ es, entryWf e)
    (hb : p.itemBytes = encodeMobileItems es) :
    world_mobile_incoming w p =
      es.foldl (fun w' e => world_equip w' (equipOfEntry p.serial e))
        (mobile_incoming_store w p) := by
  show read_equipped (mobile_incoming_store w p) p = _
  unfold read_equipped
  rw [hb]
  exact read_equipped_loop_encode p.serial es hwf _ _ (le_refl _)

/-- A concrete equipment entry whose item_id carries the hue bit. -/
def entryHue : MobileItemEntry :=
  { serial := 70, item_id := 133, layer := 1, hue := 33 }

/-- A concrete equipment entry without the hue bit. -/
def entryNoHue : MobileItemEntry :=
  { serial := 71, item_id := 5, layer := 2, hue := 0 }

/-- A concrete mobile-incoming packet carrying the two entries above. -/
def incomingPkt : MobileIncomingPacket :=
  { serial := 9, body := 1, x := 2, y := 3, z := 4, direction := 5, hue := 6,
    flags := 7, notoriety := 8,
    itemBytes := encodeMobileItems [entryHue, entryNoHue] }

theorem claim_C7_witness :
    (∀ e ∈ [entryHue, entryNoHue], entryWf e) ∧
    world_mobile_incoming emptyWorld incomingPkt =
      [entryHue, entryNoHue].foldl
        (fun w' e => world_equip w' (equipOfEntry incomingPkt.serial e))
        (mobile_incoming_store emptyWorld incomingPkt) :=
  ⟨by decide,
   claim_C7 emptyWorld incomingPkt [entryHue, entryNoHue] (by decide) rfl⟩

end UoProxy
